import Mathlib

/-!
Verification development for the OSTeacher generation-orchestration pipeline.

Shallow embedding of the Python sources under `server/`:
  * `server/models.py`            — status enumerations,
  * `server/utils/retry_utils.py` — `is_retryable_error`, `retry_api_call`,
  * `server/utils/parsers.py`     — `CourseParser`,
  * `server/utils/helpers.py`     — `extract_external_links`,
  * `server/services/course_service.py` — plan generation, background lesson
    generation loop, course creation entry point,
  * `server/services/lesson_service.py` — lesson regeneration and the
    user-status aggregation (`_check_and_update_course_completion_status`).

Python strings are modelled as `List Char`; external collaborators (the JSON
parser `json.loads`, the LLM agents, the repository layer) are modelled as
explicit parameters or as explicit success/failure inputs, exactly at the
boundaries the source code consumes them.
-/

namespace OSTeacher

/-! Status enumerations, from server/models.py. -/

/-- Model of LessonStatus from server/models.py. -/
inductive LessonStatus where
  | planned
  | generating
  | completed
  | generationFailed
  | needsReview
  | pending
  deriving DecidableEq, Repr

/-- Model of UserLessonStatus from server/models.py. -/
inductive UserLessonStatus where
  | notStarted
  | inProgress
  | completed
  deriving DecidableEq, Repr

/-- Model of CourseStatus from server/models.py. -/
inductive CourseStatus where
  | draft
  | published
  | archived
  | generating
  | completed
  | generationFailed
  deriving DecidableEq, Repr

/-- Model of UserCourseStatus from server/models.py. -/
inductive UserCourseStatus where
  | notStarted
  | inProgress
  | completed
  deriving DecidableEq, Repr

/-! Characters and strings: Python strings are modelled as `List Char`. -/

abbrev Chars := List Char

/-- Characters of a Lean string literal, the model of a Python string
literal. -/
def strLC (s : String) : Chars := s.data

/-- ASCII lower-casing of one character, modelling Python `str.lower` on the
ASCII range (all strings the embedded code compares are ASCII). -/
def asciiLower (c : Char) : Char :=
  if 'A' ≤ c ∧ c ≤ 'Z' then Char.ofNat (c.toNat + 32) else c

/-- Model of Python `str.lower`. -/
def lowerChars (s : Chars) : Chars := s.map asciiLower

/-- Tests whether `pat` occurs in the second argument starting at offset 0, 1, …; model of the Python
`in` substring test. -/
def isSubstr (pat : Chars) : Chars → Bool
  | [] => pat.isPrefixOf []
  | s@(_ :: t) => pat.isPrefixOf s || isSubstr pat t

/-! Embedding of is_retryable_error, from server/utils/retry_utils.py. -/

/-- A Python exception value: its type name and its message (`str(error)`). -/
structure PyExc where
  typeName : String
  msg : String
  deriving DecidableEq, Repr

/-- Model of the connection_indicators list inside is_retryable_error. -/
def connectionIndicators : List Chars :=
  [strLC "connection error",
   strLC "connection timeout",
   strLC "timeout",
   strLC "server disconnected",
   strLC "remote protocol error",
   strLC "connection reset",
   strLC "network error",
   strLC "api connection error",
   strLC "rate limit",
   strLC "too many requests",
   strLC "service unavailable",
   strLC "internal server error",
   strLC "bad gateway",
   strLC "gateway timeout"]

/-- Model of the retryable_types list inside is_retryable_error. -/
def retryableTypes : List Chars :=
  [strLC "connectionerror",
   strLC "timeout",
   strLC "apiconnectionerror",
   strLC "httpxremoteprotocolerror",
   strLC "remoteprotocolerror",
   strLC "modelproviderror"]

/-- Model of is_retryable_error from server/utils/retry_utils.py over raw
character lists: the message and the type name are lower-cased and matched
against the fixed indicator lists. -/
def isRetryableErrorChars (typeName msg : Chars) : Bool :=
  let errorStr := lowerChars msg
  let errorType := lowerChars typeName
  connectionIndicators.any (fun ind => isSubstr ind errorStr)
    || retryableTypes.any (fun t => isSubstr t errorType)

/-- Model of is_retryable_error applied to an exception value. -/
def isRetryableError (e : PyExc) : Bool :=
  isRetryableErrorChars (strLC e.typeName) (strLC e.msg)

/-! Embedding of retry_api_call, from server/utils/retry_utils.py. -/

/-- Model of settings.MAX_RETRIES (server/config/settings.py, default 3). -/
def settingsMaxRetries : Nat := 3

/-- Model of the Python idiom `max_retries = max_retries or
settings.MAX_RETRIES`: `None` and `0` are both falsy and replaced by the
settings default. -/
def effectiveMaxRetries (m : Option Nat) : Nat :=
  match m with
  | none => settingsMaxRetries
  | some k => if k = 0 then settingsMaxRetries else k

/-- Trace of one `retry_api_call` run: the outcome (returned value or the
exception finally raised), the number of invocations of the wrapped operation,
and the number of `time.sleep` calls performed. -/
structure RetryTrace (α : Type) where
  result : Except PyExc α
  calls : Nat
  sleeps : Nat
  deriving Repr

/-- Loop of `retry_api_call` (`for attempt in range(max_retries + 1)`),
structurally recursive on `remaining = max_retries - attempt`.  `op attempt`
is the outcome of invoking the operation on that attempt (the operation is an
external collaborator; a run either returns a value or raises `PyExc`).
When `remaining = 0` the current attempt is the last one (`attempt >=
max_retries`) and its exception is re-raised; otherwise a non-retryable
exception is re-raised at once and a retryable one leads to one sleep and the
next attempt. -/
def retryLoopGo (op : Nat → Except PyExc α) :
    Nat → Nat → Nat → Nat → RetryTrace α
  | 0, attempt, calls, sleeps =>
    match op attempt with
    | .ok a => ⟨.ok a, calls + 1, sleeps⟩
    | .error e => ⟨.error e, calls + 1, sleeps⟩
  | r + 1, attempt, calls, sleeps =>
    match op attempt with
    | .ok a => ⟨.ok a, calls + 1, sleeps⟩
    | .error e =>
      if isRetryableError e then
        retryLoopGo op r (attempt + 1) (calls + 1) (sleeps + 1)
      else
        ⟨.error e, calls + 1, sleeps⟩

/-- Model of retry_api_call from server/utils/retry_utils.py.  `maxRetries = none`
models the `None` default; a passed `0` is coerced to the settings default by
the `or` idiom (see `effectiveMaxRetries`). -/
def retryApiCall (op : Nat → Except PyExc α) (maxRetries : Option Nat) :
    RetryTrace α :=
  retryLoopGo op (effectiveMaxRetries maxRetries) 0 0 0

/-! Embedding of CourseParser, from server/utils/parsers.py. -/

/-- Characters Python `str.strip()` removes (ASCII whitespace). -/
def isPyWs (c : Char) : Bool :=
  c = ' ' || c = '\t' || c = '\n' || c = '\r' ||
    c = Char.ofNat 11 || c = Char.ofNat 12

/-- Model of Python `str.strip()`: drop leading and trailing whitespace. -/
def stripChars (s : Chars) : Chars :=
  ((s.dropWhile isPyWs).reverse.dropWhile isPyWs).reverse

/-- Index of the first occurrence of `pat` in a string (the leftmost position
at which `pat` is a prefix of the corresponding suffix), the base notion behind
`re.search` on literal patterns. -/
def firstOcc (pat : Chars) : Chars → Option Nat
  | [] => if pat.isPrefixOf [] then some 0 else none
  | s@(_ :: t) =>
    if pat.isPrefixOf s then some 0 else (firstOcc pat t).map (· + 1)

/-- Index of the first occurrence of `pat` in `s` at position `start` or
later. -/
def firstOccFrom (pat : Chars) (s : Chars) (start : Nat) : Option Nat :=
  (firstOcc pat (s.drop start)).map (· + start)

/-- Opening or closing markdown fence. -/
def fenceChars : Chars := strLC "```"

/-- Opening fence of a JSON-tagged block. -/
def jsonTagChars : Chars := strLC "```json"

/-- Left-brace character (written by code point to keep it out of string
literals). -/
def lbrace : Char := Char.ofNat 123

/-- Right-brace character. -/
def rbrace : Char := Char.ofNat 125

/-- Contiguous slice `s[i:j]` of a string. -/
def slice (s : Chars) (i j : Nat) : Chars := (s.drop i).take (j - i)

/-- Model of one fenced-block search of `_extract_json_string`:
`re.search(tag + "\\s*([\\s\\S]+?)\\s*```", content, re.DOTALL)` followed by
`.group(1).strip()`, for a literal opening `tag` (either the JSON-tagged
fence or the bare fence).  The regex match, when it exists, begins at the
first occurrence of `tag`, and its lazy group together with the flanking
`\\s*` ends at the first occurrence of the closing fence at least one
character after the end of the tag, so `group(1).strip()` is the stripped
text strictly between those two positions.  When the first occurrence of the
tag has no such closing fence, no later occurrence has one either, and the
search fails. -/
def fencedInner (tag : Chars) (s : Chars) : Option Chars :=
  match firstOcc tag s with
  | none => none
  | some t =>
    match firstOccFrom fenceChars s (t + tag.length + 1) with
    | none => none
    | some p => some (stripChars (slice s (t + tag.length) p))

/-- Index of the last occurrence of a single character. -/
def lastIdxChar (c : Char) (s : Chars) : Option Nat :=
  (firstOcc [c] s.reverse).map (fun i => s.length - 1 - i)

/-- Model of `CourseParser._extract_json_string` from
`server/utils/parsers.py`, in the code's priority order:

1. a JSON-tagged fenced block,
2. any generic fenced block,
3. the whole trimmed string when it starts with a left brace and ends with a
   right brace,
4. the greedy brace span `re.search(r'(\\{[\\s\\S]*\\})', content)`: from the
   first left brace through the last right brace, provided the latter comes
   strictly later (this candidate is not stripped, matching the code),
5. otherwise the function returns `None` (there is no fallback to the raw
   text in the code). -/
def extractJsonString (content : Chars) : Option Chars :=
  match fencedInner jsonTagChars content with
  | some js => some js
  | none =>
    match fencedInner fenceChars content with
    | some js => some js
    | none =>
      let stripped := stripChars content
      if stripped.head? = some lbrace ∧ stripped.getLast? = some rbrace then
        some stripped
      else
        match firstOcc [lbrace] content, lastIdxChar rbrace content with
        | some i, some k =>
          if i < k then some (slice content i (k + 1)) else none
        | _, _ => none

/-- Character class removed by `CourseParser._clean_json_string`
(`[\\x00-\\x08\\x0B-\\x0C\\x0E-\\x1F\\x7F]`). -/
def strippedCtrl (c : Char) : Bool :=
  c.toNat ≤ 8 || (11 ≤ c.toNat && c.toNat ≤ 12) ||
    (14 ≤ c.toNat && c.toNat ≤ 31) || c.toNat = 127

/-- Model of `CourseParser._clean_json_string`. -/
def cleanJsonString (s : Chars) : Chars := s.filter (fun c => !(strippedCtrl c))

/-- Backtick character (written by code point). -/
def btChar : Char := Char.ofNat 96

/-- Model of `CourseParser.parse_course_plan` from `server/utils/parsers.py`.
The standard-library JSON parser `json.loads` is an external collaborator and
is passed in as `loads` (returning `none` models `json.JSONDecodeError`).
An extracted candidate that is `None` or empty (Python falsiness) returns
`None` without invoking the JSON parser. -/
def parseCoursePlan {J : Type} (loads : Chars → Option J) (content : Chars) :
    Option J :=
  match extractJsonString content with
  | none => none
  | some js => if js.isEmpty then none else loads (cleanJsonString js)

/-! Embedding of the user-status aggregation, from
server/services/lesson_service.py
(LessonService._check_and_update_course_completion_status and
LessonService.update_lesson_user_status).  The repositories map the database
column `user_facing_status` to the key `status` on every returned row, so
`cur` below is the course's user-facing status (`none` models a missing/null
value) and each list entry a lesson's user-facing status. -/

/-- Model of the `new_course_user_status_value` computation inside
`_check_and_update_course_completion_status`: `none` models the Python
`None` left in place when no branch assigns a value (empty lesson list with a
stored `not_started`). -/
def deriveNewStatus (cur : Option UserCourseStatus)
    (ls : List (Option UserLessonStatus)) : Option UserCourseStatus :=
  if ls.isEmpty then
    if cur = some .completed ∨ cur = some .inProgress then some .notStarted
    else if cur = none then some .notStarted
    else none
  else
    if ls.all (fun s => s = some .completed) then some .completed
    else if ls.any (fun s => s = some .inProgress) ||
        ls.any (fun s => s = some .completed) then some .inProgress
    else some .notStarted

/-- Model of the tail of `_check_and_update_course_completion_status`: the
course row is written back only when the derived value is truthy and differs
from the stored value.  Returns the final stored course user status and
whether a write-back was performed. -/
def checkAndUpdateCourse (cur : Option UserCourseStatus)
    (ls : List (Option UserLessonStatus)) : Option UserCourseStatus × Bool :=
  match deriveNewStatus cur ls with
  | some v => if some v ≠ cur then (some v, true) else (cur, false)
  | none => (cur, false)

/-- A lesson row as `update_lesson_user_status` sees it: id, owning course,
and user-facing status. -/
structure LessonRow where
  id : Nat
  courseId : Nat
  userStatus : UserLessonStatus
  deriving DecidableEq, Repr

/-- The state `update_lesson_user_status` reads and writes: the owning
course's user-facing status and the course's lesson rows (in
`order_in_course` order, as returned by the repository). -/
structure CourseState where
  userStatus : Option UserCourseStatus
  lessons : List LessonRow
  deriving DecidableEq, Repr

/-- Model of `LessonService.update_lesson_user_status`: update the lesson
row's user-facing status (the repository returns `None` when no row matches,
in which case the service returns `None` and no course check runs), then run
`_check_and_update_course_completion_status` on the owning course.  Returns
the lesson row returned to the caller, the final state, and whether the
course row was written back. -/
def updateLessonUserStatus (st : CourseState) (lid : Nat)
    (ns : UserLessonStatus) : Option LessonRow × CourseState × Bool :=
  if st.lessons.any (fun l => l.id == lid) then
    let newLessons := st.lessons.map
      (fun l => if l.id == lid then { l with userStatus := ns } else l)
    let updated := newLessons.find? (fun l => l.id == lid)
    let res := checkAndUpdateCourse st.userStatus
      (newLessons.map (fun l => some l.userStatus))
    (updated, ⟨res.1, newLessons⟩, res.2)
  else
    (none, st, false)

/-! Embedding of extract_external_links, from server/utils/helpers.py:
`re.findall` of the markdown-link pattern.  The pattern is an opening square
bracket, a lazy run of non-close-bracket characters, a closing square
bracket, an opening parenthesis, a lazy nonempty run of non-close-parenthesis
characters (the captured URL), and a closing parenthesis.  `re.findall`
scans left to right, resuming after each match, and advances by one character
past a failed candidate start. -/

/-- Split a string at the first occurrence of `c`, returning the part before
(which therefore does not contain `c`) and the part after. -/
def splitAtChar (c : Char) : Chars → Option (Chars × Chars)
  | [] => none
  | x :: t =>
    if x = c then some ([], t)
    else (splitAtChar c t).map (fun p => (x :: p.1, p.2))

/-- Scanner for `re.findall(r"\[[^\]]*?\]\(([^)]+?)\)", content)`: at each
opening square bracket, the lazy classes force the bracket text to end at the
first closing square bracket and the URL to end at the first closing
parenthesis; an empty URL fails the candidate.  `fuel` bounds recursion (one
unit per consumed character suffices). -/
def extractLinksGo : Nat → Chars → List Chars
  | 0, _ => []
  | _, [] => []
  | fuel + 1, c :: rest =>
    if c = '[' then
      match splitAtChar ']' rest with
      | some (_, rest1) =>
        match rest1 with
        | '(' :: rest2 =>
          match splitAtChar ')' rest2 with
          | some (url, rest3) =>
            if url.isEmpty then extractLinksGo fuel rest
            else url :: extractLinksGo fuel rest3
          | none => extractLinksGo fuel rest
        | _ => extractLinksGo fuel rest
      | none => extractLinksGo fuel rest
    else extractLinksGo fuel rest

/-- Model of extract_external_links from server/utils/helpers.py. -/
def extractExternalLinks (content : Chars) : List Chars :=
  extractLinksGo content.length content

/-! Embedding of the lesson/plan generation pipeline, from
server/services/course_service.py.  The LLM agents are external
collaborators: one call either returns a response object (with a `content`
and possibly an `error` attribute) or no object at all, so a call outcome is
an `Option AgentResp`.  The repository layer is external too: a placeholder
insert may fail (the loop then skips that lesson), which is an explicit
Boolean input per iteration; row updates' return values are unchecked by the
loop.  The pure model has no unexpected exceptions, so the top-level
`except` branch of the background task (which would set the course to
`generation_failed`) is never taken. -/

/-- An agent response object: `content` (possibly absent/None) and `error`
(absent on a normal RunResponse, set on the agents' ErrorResponse). -/
structure AgentResp where
  content : Option Chars
  error : Option Chars
  deriving DecidableEq, Repr

/-- Python truthiness test `response and hasattr(response, 'content') and
response.content` used by the services: the usable content of an agent call
outcome, if any. -/
def usableContent (r : Option AgentResp) : Option Chars :=
  match r with
  | none => none
  | some resp =>
    match resp.content with
    | none => none
    | some c => if c.isEmpty then none else some c

/-- Model of LessonOutlineItem from server/models.py. -/
structure OutlineItem where
  order : Nat
  plannedTitle : Chars
  plannedDescription : Chars
  hasQuiz : Bool
  deriving DecidableEq, Repr

/-- A lesson row as written by the generation loop. -/
structure GenLesson where
  id : Nat
  courseId : Nat
  title : Chars
  plannedDescription : Chars
  orderInCourse : Nat
  generationStatus : LessonStatus
  userFacingStatus : UserLessonStatus
  contentMd : Option Chars
  externalLinks : Option (List Chars)
  hasQuiz : Bool
  deriving DecidableEq, Repr

/-- The per-item loop of `_generate_lessons_async`, in outline-plan list
order.  Iteration `i`: insert the placeholder row (status `planned`, then
immediately updated to `generating`; `createOk i = false` models a failed
insert, after which the loop `continue`s without a row); call the lesson
agent (`agent i`); on usable content persist content, extracted links and
status `completed` (requesting a per-lesson quiz when the item asks for
one); otherwise persist only status `generation_failed` — the computed error
message is logged, not stored.  Returns the lesson rows in creation order
and the ids for which a per-lesson quiz was requested. -/
def genLessonsLoop (agent : Nat → Option AgentResp) (createOk : Nat → Bool)
    (courseId : Nat) :
    List OutlineItem → Nat → Nat → List GenLesson → List Nat →
      List GenLesson × List Nat
  | [], _, _, lessons, quizReqs => (lessons, quizReqs)
  | item :: rest, i, nextId, lessons, quizReqs =>
    if createOk i then
      match usableContent (agent i) with
      | some c =>
        genLessonsLoop agent createOk courseId rest (i + 1) (nextId + 1)
          (lessons ++
            [⟨nextId, courseId, item.plannedTitle, item.plannedDescription,
              item.order, .completed, .notStarted, some c,
              some (extractExternalLinks c), item.hasQuiz⟩])
          (quizReqs ++ if item.hasQuiz then [nextId] else [])
      | none =>
        genLessonsLoop agent createOk courseId rest (i + 1) (nextId + 1)
          (lessons ++
            [⟨nextId, courseId, item.plannedTitle, item.plannedDescription,
              item.order, .generationFailed, .notStarted, none, none,
              item.hasQuiz⟩]) quizReqs
    else
      genLessonsLoop agent createOk courseId rest (i + 1) nextId lessons
        quizReqs

/-- Final observable state of one background `generate_lessons` task. -/
structure GenOutcome where
  courseStatus : CourseStatus
  lessons : List GenLesson
  quizRequests : List Nat
  finalQuizRequested : Bool
  deriving DecidableEq, Repr

/-- Model of the background task body of
`CourseService._generate_lessons_async`: set the course to `generating`,
run the per-item loop over the outline plan in list order, optionally request
the final course quiz, and only then set the course `generation_status` to
`completed`. -/
def generateLessonsTask (agent : Nat → Option AgentResp)
    (createOk : Nat → Bool) (courseId : Nat) (plan : List OutlineItem)
    (hasQuizzes : Bool) : GenOutcome :=
  let res := genLessonsLoop agent createOk courseId plan 0 0 [] []
  ⟨.completed, res.1, res.2, hasQuizzes⟩

/-! Embedding of plan generation and course creation, from
server/services/course_service.py (`_generate_course_plan` and
`create_course_with_team`). -/

/-- The parsed planner JSON as `_generate_course_plan` inspects it: presence
of the three required keys (`courseTitle`, `courseDescription`,
`lesson_outline_plan`).  The JSON parser is external; field absence is
`none`. -/
structure PlanData where
  courseTitle : Option Chars
  courseDescription : Option Chars
  lessonOutlinePlan : Option (List OutlineItem)
  deriving DecidableEq, Repr

/-- A parsed plan passes `_generate_course_plan`'s validation when all three
required keys are present and the outline list is nonempty. -/
def planDataValid (p : PlanData) : Bool :=
  p.courseTitle.isSome && p.courseDescription.isSome &&
    (match p.lessonOutlinePlan with
     | some l => !l.isEmpty
     | none => false)

/-- Model of `CourseService._generate_course_plan`: run the planner agent
exactly once; on an error attribute, missing/empty content, a JSON parse
failure (`loads` returning `none`), or failed validation of the required
keys, return no plan.  There is no re-prompt: the agent is invoked exactly
once on every path, which the returned counter records. -/
def generateCoursePlan (loads : Chars → Option PlanData)
    (plannerResp : Option AgentResp) : Option PlanData × Nat :=
  let calls := 1
  match plannerResp with
  | none => (none, calls)
  | some r =>
    match r.error with
    | some _ => (none, calls)
    | none =>
      match r.content with
      | none => (none, calls)
      | some c =>
        if c.isEmpty then (none, calls)
        else
          match loads c with
          | none => (none, calls)
          | some plan =>
            if planDataValid plan then (some plan, calls) else (none, calls)

/-- Final observable state of one `create_course_with_team` call. -/
structure CreateOutcome where
  result : Option PlanData
  plannerCalls : Nat
  courseCreated : Bool
  backgroundStarted : Bool
  deriving DecidableEq, Repr

/-- Model of `CourseService.create_course_with_team`: with
`has_quizzes = False` the method raises `ValueError` before any agent or
repository call; the surrounding `except` catches it and returns `None`.
Otherwise it generates a plan (one planner call), creates the course row
(`createOk` models the repository outcome), starts the background generation
thread and returns the course. -/
def createCourseWithTeam (loads : Chars → Option PlanData)
    (plannerResp : Option AgentResp) (createOk : Bool) (hasQuizzes : Bool) :
    CreateOutcome :=
  if !hasQuizzes then ⟨none, 0, false, false⟩
  else
    let res := generateCoursePlan loads plannerResp
    match res.1 with
    | none => ⟨none, res.2, false, false⟩
    | some plan =>
      if createOk then ⟨some plan, res.2, true, true⟩
      else ⟨none, res.2, false, false⟩

/-! Embedding of the lesson regeneration response handling, from
server/services/lesson_service.py (`LessonService.regenerate_lesson`,
step 5). -/

/-- The failure message `agent_error_msg` computed by `regenerate_lesson`
when the agent call yields no usable content: a missing response object, a
response with an error attribute (prefixed when the error classifies as
retryable/connection-class, via `is_retryable_error(Exception(error))` —
type name `Exception`), or a response with neither. -/
def regenFailureMsg (resp : Option AgentResp) : Chars :=
  match resp with
  | none => strLC "Agent did not return a response object."
  | some r =>
    match r.error with
    | some e =>
      if isRetryableErrorChars (strLC "Exception") e then
        strLC "Connection issues prevented content generation after multiple retries: "
          ++ e
      else e
    | none => strLC "Agent returned no content or an invalid response."

/-- The update `regenerate_lesson` persists for the lesson row after the
agent call: on usable content, the content, the extracted links and status
`completed`; otherwise status `generation_failed` together with a
human-readable failure message stored in `content_md` (the links field is
not touched in that branch, modelled as `none`). -/
structure RegenUpdate where
  generationStatus : LessonStatus
  contentMd : Option Chars
  externalLinks : Option (List Chars)
  deriving DecidableEq, Repr

/-- Model of the response-processing step of
`LessonService.regenerate_lesson`. -/
def regenerateProcessResponse (resp : Option AgentResp) : RegenUpdate :=
  match usableContent resp with
  | some c => ⟨.completed, some c, some (extractExternalLinks c)⟩
  | none =>
    ⟨.generationFailed,
      some (strLC "Content generation failed. " ++ regenFailureMsg resp),
      none⟩

/-- Closed form of the rows produced by `genLessonsLoop` when every
placeholder insert succeeds: one row per outline item, in list order, with
sequential ids; used to state and prove properties of the loop. -/
def expectedRows (agent : Nat → Option AgentResp) (courseId : Nat) :
    List OutlineItem → Nat → Nat → List GenLesson
  | [], _, _ => []
  | item :: rest, i, nextId =>
    (match usableContent (agent i) with
     | some c =>
       ⟨nextId, courseId, item.plannedTitle, item.plannedDescription,
         item.order, .completed, .notStarted, some c,
         some (extractExternalLinks c), item.hasQuiz⟩
     | none =>
       ⟨nextId, courseId, item.plannedTitle, item.plannedDescription,
         item.order, .generationFailed, .notStarted, none, none,
         item.hasQuiz⟩) :: expectedRows agent courseId rest (i + 1) (nextId + 1)

/-! Theorems. -/

/-- Helper: a run of the retry loop in which every attempt raises a
retryable exception performs all remaining attempts and finally re-raises the
exception of the last attempt, having slept once per non-final attempt. -/
theorem retryLoopGo_allFail {α : Type} (errs : Nat → PyExc)
    (hret : ∀ i, isRetryableError (errs i) = true) :
    ∀ (r attempt calls sleeps : Nat),
      retryLoopGo (α := α) (fun i => .error (errs i)) r attempt calls sleeps =
        ⟨.error (errs (attempt + r)), calls + r + 1, sleeps + r⟩ := by
  intro r
  induction r with
  | zero =>
    intro attempt calls sleeps
    simp [retryLoopGo]
  | succ n ih =>
    intro attempt calls sleeps
    have harith : attempt + 1 + n = attempt + (n + 1) := by omega
    simp only [retryLoopGo, hret, if_true, ih, harith]
    congr 1 <;> omega

/-- Helper: a list is a prefix of itself followed by anything, as a Boolean
`isPrefixOf` fact. -/
theorem isPrefixOf_append_self (l r : Chars) : l.isPrefixOf (l ++ r) = true := by
  rw [List.isPrefixOf_iff_prefix]
  exact List.prefix_append l r

/-- Helper: the first occurrence of a pattern in a string that starts with
that very pattern is at index 0. -/
theorem firstOcc_self (pat rest : Chars) : firstOcc pat (pat ++ rest) = some 0 := by
  cases h : pat ++ rest with
  | nil =>
    have hp : pat = [] := by
      cases pat with
      | nil => rfl
      | cons a t => simp at h
    subst hp
    simp [firstOcc]
  | cons x t =>
    rw [firstOcc]
    have : pat.isPrefixOf (x :: t) = true := h ▸ isPrefixOf_append_self pat rest
    simp [this]

/-- Helper: searching for a pattern whose first character does not occur in a
prefix block skips that block entirely. -/
theorem firstOcc_append_of_head_notMem (pat a b : Chars) (c : Char)
    (hc : pat.head? = some c) (hna : c ∉ a) :
    firstOcc pat (a ++ b) = (firstOcc pat b).map (· + a.length) := by
  induction a with
  | nil =>
    simp only [List.nil_append, List.length_nil]
    cases firstOcc pat b <;> simp
  | cons x a' ih =>
    have hxc : x ≠ c := fun h => hna (h ▸ List.mem_cons_self x a')
    have hna' : c ∉ a' := fun h => hna (List.mem_cons_of_mem x h)
    obtain ⟨pat', rfl⟩ : ∃ pat', pat = c :: pat' := by
      cases pat with
      | nil => simp at hc
      | cons p t => simp at hc; exact ⟨t, by rw [hc]⟩
    have hnp : (c :: pat').isPrefixOf (x :: (a' ++ b)) = false := by
      simp [List.isPrefixOf]
      intro h
      exact absurd h.symm hxc
    rw [List.cons_append, firstOcc]
    simp only [hnp, Bool.false_eq_true, if_false]
    rw [ih hna']
    cases firstOcc (c :: pat') b with
    | none => rfl
    | some n =>
      simp only [Option.map_some']
      congr 1

/-- Helper: the first occurrence of a single character `c` in a string whose
head is `c` is at index 0. -/
theorem firstOcc_singleton_head (c : Char) (s : Chars) (h : s.head? = some c) :
    firstOcc [c] s = some 0 := by
  cases s with
  | nil => simp at h
  | cons x t =>
    simp only [List.head?_cons, Option.some.injEq] at h
    subst h
    rw [firstOcc]
    simp [List.isPrefixOf]

/-- Helper: a fenced block whose opening tag starts with a backtick, whose
body has no backtick, and which is preceded by backtick-free text, is found by
`fencedInner`, which returns the stripped body. -/
theorem fencedInner_wrap (tag pre j post' : Chars)
    (htag : tag.head? = some btChar)
    (hpre : btChar ∉ pre) (hj : btChar ∉ j) (hne : j ≠ []) :
    fencedInner tag (pre ++ tag ++ j ++ fenceChars ++ post') =
      some (stripChars j) := by
  have hjlen : 1 ≤ j.length := by
    cases j with
    | nil => exact absurd rfl hne
    | cons a t => simp
  have htext : pre ++ tag ++ j ++ fenceChars ++ post' =
      pre ++ (tag ++ (j ++ (fenceChars ++ post'))) := by
    simp [List.append_assoc]
  have h1 : firstOcc tag (pre ++ tag ++ j ++ fenceChars ++ post') =
      some pre.length := by
    rw [htext, firstOcc_append_of_head_notMem tag pre _ btChar htag hpre,
      firstOcc_self]
    simp
  have hdrop : (pre ++ tag ++ j ++ fenceChars ++ post').drop
      (pre.length + tag.length + 1) = j.drop 1 ++ (fenceChars ++ post') := by
    have hassoc : pre ++ tag ++ j ++ fenceChars ++ post' =
        (pre ++ tag) ++ (j ++ (fenceChars ++ post')) := by
      simp [List.append_assoc]
    have hlen : pre.length + tag.length + 1 = (pre ++ tag).length + 1 := by
      simp [List.length_append]
    rw [hassoc, hlen, List.drop_append,
      List.drop_append_of_le_length hjlen]
  have hj' : btChar ∉ j.drop 1 := fun h => hj (List.mem_of_mem_drop h)
  have h2 : firstOccFrom fenceChars (pre ++ tag ++ j ++ fenceChars ++ post')
      (pre.length + tag.length + 1) =
      some (pre.length + tag.length + j.length) := by
    rw [firstOccFrom, hdrop,
      firstOcc_append_of_head_notMem fenceChars (j.drop 1) _ btChar (by decide)
        hj', firstOcc_self]
    simp [List.length_drop]
    omega
  have hslice : slice (pre ++ tag ++ j ++ fenceChars ++ post')
      (pre.length + tag.length) (pre.length + tag.length + j.length) = j := by
    rw [slice]
    have hassoc : pre ++ tag ++ j ++ fenceChars ++ post' =
        (pre ++ tag) ++ (j ++ (fenceChars ++ post')) := by
      simp [List.append_assoc]
    have hlen : pre.length + tag.length = (pre ++ tag).length := by
      simp [List.length_append]
    rw [hassoc, hlen, List.drop_left]
    have : (pre ++ tag).length + j.length - (pre ++ tag).length = j.length := by
      omega
    rw [this, List.take_left]
  simp only [fencedInner, h1, h2, hslice]

/-- Helper: a nonempty list never has `isEmpty = true`. -/
theorem isEmpty_false_of_ne_nil (l : Chars) (h : l ≠ []) : l.isEmpty = false := by
  cases l with
  | nil => exact absurd rfl h
  | cons a t => rfl

/-- Helper: a list whose head is known is nonempty. -/
theorem ne_nil_of_head?_eq_some (l : Chars) (c : Char) (h : l.head? = some c) :
    l ≠ [] := by
  cases l <;> simp_all

/-- Helper: the head of an append is the head of a nonempty left part. -/
theorem head?_append_of_eq_some (l₁ l₂ : Chars) (c : Char)
    (h : l₁.head? = some c) : (l₁ ++ l₂).head? = some c := by
  cases l₁ <;> simp_all

/-- Helper: a string with no characters of the removed control class is left
unchanged by `_clean_json_string`. -/
theorem cleanJsonString_eq_self (j : Chars)
    (h : ∀ c ∈ j, strippedCtrl c = false) : cleanJsonString j = j := by
  rw [cleanJsonString]
  apply List.filter_eq_self.mpr
  intro c hc
  simp [h c hc]

/-- Helper: `parse_course_plan` on a text from which a nonempty,
control-character-free candidate is extracted hands exactly that candidate to
the JSON parser. -/
theorem parseCoursePlan_of_extract {J : Type} (loads : Chars → Option J)
    (content j : Chars) (hx : extractJsonString content = some j)
    (hne : j ≠ []) (hcl : ∀ c ∈ j, strippedCtrl c = false) :
    parseCoursePlan loads content = loads j := by
  simp only [parseCoursePlan, hx, isEmpty_false_of_ne_nil j hne,
    Bool.false_eq_true, if_false, cleanJsonString_eq_self j hcl]

/-- Helper: extraction from a JSON-tagged fenced block (step 1 of
`_extract_json_string`). -/
theorem extractJson_jsonFence (pre j post' : Chars)
    (hpre : btChar ∉ pre) (hj : btChar ∉ j) (hne : j ≠ []) :
    extractJsonString (pre ++ jsonTagChars ++ j ++ fenceChars ++ post') =
      some (stripChars j) := by
  simp only [extractJsonString,
    fencedInner_wrap jsonTagChars pre j post' (by decide) hpre hj hne]

/-- Helper: extraction from a generic fenced block (step 2 of
`_extract_json_string`), when no JSON-tagged block is found. -/
theorem extractJson_genericFence (pre j post' : Chars)
    (h1 : fencedInner jsonTagChars (pre ++ fenceChars ++ j ++ fenceChars ++ post') =
      none)
    (hpre : btChar ∉ pre) (hj : btChar ∉ j) (hne : j ≠ []) :
    extractJsonString (pre ++ fenceChars ++ j ++ fenceChars ++ post') =
      some (stripChars j) := by
  simp only [extractJsonString, h1,
    fencedInner_wrap fenceChars pre j post' (by decide) hpre hj hne]

/-- Helper: extraction of the whole trimmed string when it is brace-delimited
(step 3 of `_extract_json_string`), when no fenced block is found. -/
theorem extractJson_whole (content : Chars)
    (h1 : fencedInner jsonTagChars content = none)
    (h2 : fencedInner fenceChars content = none)
    (hhead : (stripChars content).head? = some lbrace)
    (hlast : (stripChars content).getLast? = some rbrace) :
    extractJsonString content = some (stripChars content) := by
  simp only [extractJsonString, h1, h2]
  rw [if_pos ⟨hhead, hlast⟩]

/-- Helper: extraction of the brace span from the first left brace through the
last right brace (step 4 of `_extract_json_string`), when no earlier step
fires. -/
theorem extractJson_span (pre j post' : Chars)
    (h1 : fencedInner jsonTagChars (pre ++ j ++ post') = none)
    (h2 : fencedInner fenceChars (pre ++ j ++ post') = none)
    (h3 : ¬ ((stripChars (pre ++ j ++ post')).head? = some lbrace ∧
      (stripChars (pre ++ j ++ post')).getLast? = some rbrace))
    (hjh : j.head? = some lbrace) (hjl : j.getLast? = some rbrace)
    (hpre : lbrace ∉ pre) (hpost : rbrace ∉ post') (hlen : 2 ≤ j.length) :
    extractJsonString (pre ++ j ++ post') = some j := by
  have hassoc : pre ++ j ++ post' = pre ++ (j ++ post') := by
    simp [List.append_assoc]
  have hfo : firstOcc [lbrace] (pre ++ j ++ post') = some pre.length := by
    rw [hassoc,
      firstOcc_append_of_head_notMem [lbrace] pre (j ++ post') lbrace rfl hpre,
      firstOcc_singleton_head lbrace (j ++ post')
        (head?_append_of_eq_some j post' lbrace hjh)]
    simp
  have hrev : (pre ++ j ++ post').reverse =
      post'.reverse ++ (j.reverse ++ pre.reverse) := by
    simp [List.reverse_append]
  have hjr : j.reverse.head? = some rbrace := by
    rw [List.head?_reverse]; exact hjl
  have hpostr : rbrace ∉ post'.reverse := fun h =>
    hpost (List.mem_reverse.mp h)
  have hfr : firstOcc [rbrace] (pre ++ j ++ post').reverse =
      some post'.length := by
    rw [hrev,
      firstOcc_append_of_head_notMem [rbrace] post'.reverse _ rbrace rfl hpostr,
      firstOcc_singleton_head rbrace (j.reverse ++ pre.reverse)
        (head?_append_of_eq_some j.reverse pre.reverse rbrace hjr)]
    simp
  have hlast : lastIdxChar rbrace (pre ++ j ++ post') =
      some (pre.length + j.length - 1) := by
    rw [lastIdxChar, hfr]
    simp only [Option.map_some']
    congr 1
    simp only [List.length_append]
    omega
  have hik : pre.length < pre.length + j.length - 1 := by omega
  have hslice : slice (pre ++ j ++ post') pre.length
      (pre.length + j.length - 1 + 1) = j := by
    rw [slice, hassoc, List.drop_left]
    have : pre.length + j.length - 1 + 1 - pre.length = j.length := by omega
    rw [this, List.take_left]
  simp only [extractJsonString, h1, h2]
  rw [if_neg h3, hfo, hlast]
  dsimp only
  rw [if_pos hik, hslice]

/-- Claim C4: for every agent response text that wraps a (nonempty, trimmed,
control-character-free, backtick-free) JSON candidate in a JSON-tagged fenced
block, a generic fenced block, a bare brace-delimited whole string, or a
brace span embedded in prose, `parse_course_plan` hands exactly the inner
JSON substring to the JSON parser, so it returns the same object as parsing
that substring directly; the candidate is chosen in the code's priority
order, the later shapes applying when the earlier steps find nothing. -/
theorem claim_C4_extractor_priority :
    (∀ (J : Type) (loads : Chars → Option J) (pre j post' : Chars),
      btChar ∉ pre → btChar ∉ j → j ≠ [] → stripChars j = j →
      (∀ c ∈ j, strippedCtrl c = false) →
      parseCoursePlan loads (pre ++ jsonTagChars ++ j ++ fenceChars ++ post') =
        loads j) ∧
    (∀ (J : Type) (loads : Chars → Option J) (pre j post' : Chars),
      fencedInner jsonTagChars (pre ++ fenceChars ++ j ++ fenceChars ++ post') =
        none →
      btChar ∉ pre → btChar ∉ j → j ≠ [] → stripChars j = j →
      (∀ c ∈ j, strippedCtrl c = false) →
      parseCoursePlan loads (pre ++ fenceChars ++ j ++ fenceChars ++ post') =
        loads j) ∧
    (∀ (J : Type) (loads : Chars → Option J) (content j : Chars),
      fencedInner jsonTagChars content = none →
      fencedInner fenceChars content = none →
      stripChars content = j →
      j.head? = some lbrace → j.getLast? = some rbrace →
      (∀ c ∈ j, strippedCtrl c = false) →
      parseCoursePlan loads content = loads j) ∧
    (∀ (J : Type) (loads : Chars → Option J) (pre j post' : Chars),
      fencedInner jsonTagChars (pre ++ j ++ post') = none →
      fencedInner fenceChars (pre ++ j ++ post') = none →
      ¬ ((stripChars (pre ++ j ++ post')).head? = some lbrace ∧
        (stripChars (pre ++ j ++ post')).getLast? = some rbrace) →
      j.head? = some lbrace → j.getLast? = some rbrace →
      lbrace ∉ pre → rbrace ∉ post' → 2 ≤ j.length →
      (∀ c ∈ j, strippedCtrl c = false) →
      parseCoursePlan loads (pre ++ j ++ post') = loads j) := by
  refine ⟨?_, ?_, ?_, ?_⟩
  · intro J loads pre j post' hpre hj hne hstrip hcl
    have hx := extractJson_jsonFence pre j post' hpre hj hne
    rw [hstrip] at hx
    exact parseCoursePlan_of_extract loads _ j hx hne hcl
  · intro J loads pre j post' h1 hpre hj hne hstrip hcl
    have hx := extractJson_genericFence pre j post' h1 hpre hj hne
    rw [hstrip] at hx
    exact parseCoursePlan_of_extract loads _ j hx hne hcl
  · intro J loads content j h1 h2 hstrip hhead hlast hcl
    have hx := extractJson_whole content h1 h2 (hstrip ▸ hhead) (hstrip ▸ hlast)
    rw [hstrip] at hx
    exact parseCoursePlan_of_extract loads _ j hx
      (ne_nil_of_head?_eq_some j lbrace hhead) hcl
  · intro J loads pre j post' h1 h2 h3 hjh hjl hpre hpost hlen hcl
    have hx := extractJson_span pre j post' h1 h2 h3 hjh hjl hpre hpost hlen
    exact parseCoursePlan_of_extract loads _ j hx
      (ne_nil_of_head?_eq_some j lbrace hjh) hcl

/-- Claim C4, witness: each of the four wrapping shapes at a concrete input,
with the identity parser, recovers exactly the inner JSON substring. -/
theorem claim_C4_extractor_priority_witness :
    parseCoursePlan (some : Chars → Option Chars)
        (strLC "Answer:\n" ++ jsonTagChars ++ strLC "\x7b\"a\": 1\x7d" ++
          fenceChars ++ strLC "\nthanks") =
      some (strLC "\x7b\"a\": 1\x7d") ∧
    parseCoursePlan (some : Chars → Option Chars)
        (strLC "Result: " ++ fenceChars ++ strLC "\x7b\"b\": 2\x7d" ++
          fenceChars ++ strLC " end") =
      some (strLC "\x7b\"b\": 2\x7d") ∧
    parseCoursePlan (some : Chars → Option Chars)
        (strLC "  \x7b\"c\": 3\x7d  ") =
      some (strLC "\x7b\"c\": 3\x7d") ∧
    parseCoursePlan (some : Chars → Option Chars)
        (strLC "prose \x7b\"d\": 4\x7d more") =
      some (strLC "\x7b\"d\": 4\x7d") :=
  ⟨claim_C4_extractor_priority.1 Chars some
      (strLC "Answer:\n") (strLC "\x7b\"a\": 1\x7d") (strLC "\nthanks")
      (by decide) (by decide) (by decide) (by decide) (by decide),
   claim_C4_extractor_priority.2.1 Chars some
      (strLC "Result: ") (strLC "\x7b\"b\": 2\x7d") (strLC " end")
      (by decide) (by decide) (by decide) (by decide) (by decide) (by decide),
   claim_C4_extractor_priority.2.2.1 Chars some
      (strLC "  \x7b\"c\": 3\x7d  ") (strLC "\x7b\"c\": 3\x7d")
      (by decide) (by decide) (by decide) (by decide) (by decide) (by decide),
   claim_C4_extractor_priority.2.2.2 Chars some
      (strLC "prose ") (strLC "\x7b\"d\": 4\x7d") (strLC " more")
      (by decide) (by decide) (by decide) (by decide) (by decide) (by decide)
      (by decide) (by decide) (by decide)⟩

/-- Claim C6, counterexample: on an input with no fenced block, no
brace-delimited trimmed string and no brace span, `_extract_json_string` does
not fall back to the raw text as a candidate — it returns `None`, and
`parse_course_plan` returns `None` without ever consulting the JSON parser
(here a parser that accepts every input). -/
theorem claim_C6_counterexample :
    extractJsonString (strLC "plain prose answer") = none ∧
    parseCoursePlan (fun _ => (some 0 : Option Nat))
      (strLC "plain prose answer") = none := by
  constructor <;> decide

/-- Claim C6 (amended): for every input in which the four extraction steps
yield no candidate, `_extract_json_string` returns `None` and
`parse_course_plan` short-circuits to `None` without attempting a parse (the
conclusion holds for every parser `loads`, so the raw text is never used as a
parse candidate). -/
theorem claim_C6_no_fallback {J : Type} (loads : Chars → Option J)
    (content : Chars) (h : extractJsonString content = none) :
    parseCoursePlan loads content = none := by
  simp [parseCoursePlan, h]

/-- Claim C6, witness: a concrete candidate-free input short-circuits to
`None` even though the supplied parser accepts everything. -/
theorem claim_C6_no_fallback_witness :
    parseCoursePlan (fun _ => (some 7 : Option Nat))
      (strLC "no braces or fences") = none :=
  claim_C6_no_fallback (fun _ => some 7) (strLC "no braces or fences")
    (by decide)

/-- Claim C2: the derived course user-status is `not_started` on an empty
lesson list regardless of the stored course status; `completed` when every
lesson is completed; `in_progress` when at least one lesson is in progress or
completed but not all are completed; and `not_started` when all lessons are
`not_started`.  The conclusion is about the resulting stored course status
after `_check_and_update_course_completion_status` runs. -/
theorem claim_C2_derived_course_status :
    (∀ (cur : Option UserCourseStatus),
      (checkAndUpdateCourse cur []).1 = some .notStarted) ∧
    (∀ (cur : Option UserCourseStatus) (ls : List UserLessonStatus),
      ls ≠ [] → (∀ s ∈ ls, s = .completed) →
      (checkAndUpdateCourse cur (ls.map some)).1 = some .completed) ∧
    (∀ (cur : Option UserCourseStatus) (ls : List UserLessonStatus),
      (∃ s ∈ ls, s = .inProgress ∨ s = .completed) →
      ¬ (∀ s ∈ ls, s = .completed) →
      (checkAndUpdateCourse cur (ls.map some)).1 = some .inProgress) ∧
    (∀ (cur : Option UserCourseStatus) (ls : List UserLessonStatus),
      ls ≠ [] → (∀ s ∈ ls, s = .notStarted) →
      (checkAndUpdateCourse cur (ls.map some)).1 = some .notStarted) := by
  refine ⟨?_, ?_, ?_, ?_⟩
  · intro cur
    cases cur with
    | none => decide
    | some v => cases v <;> decide
  · intro cur ls hne hall
    have hd : deriveNewStatus cur (ls.map some) = some .completed := by
      have hisEmpty : (ls.map some).isEmpty = false := by
        cases ls with
        | nil => exact absurd rfl hne
        | cons a t => rfl
      have hallT : (ls.map some).all
          (fun s => s = some UserLessonStatus.completed) = true := by
        rw [List.all_eq_true]
        intro s hs
        rw [List.mem_map] at hs
        obtain ⟨x, hx, rfl⟩ := hs
        simp [hall x hx]
      simp [deriveNewStatus, hisEmpty, hallT]
    simp only [checkAndUpdateCourse, hd]
    by_cases h : some UserCourseStatus.completed = cur <;> simp [h]
  · intro cur ls hex hnall
    obtain ⟨s0, hs0mem, hs0⟩ := hex
    have hd : deriveNewStatus cur (ls.map some) = some .inProgress := by
      have hisEmpty : (ls.map some).isEmpty = false := by
        cases ls with
        | nil => simp at hs0mem
        | cons a t => rfl
      have hallF : (ls.map some).all
          (fun s => s = some UserLessonStatus.completed) = false := by
        rw [← Bool.not_eq_true, List.all_eq_true]
        intro habs
        apply hnall
        intro s hs
        have := habs (some s) (List.mem_map_of_mem _ hs)
        simpa using this
      have hany : ((ls.map some).any
            (fun s => s = some UserLessonStatus.inProgress) ||
          (ls.map some).any
            (fun s => s = some UserLessonStatus.completed)) = true := by
        rw [Bool.or_eq_true]
        rcases hs0 with h | h
        · left
          rw [List.any_eq_true]
          exact ⟨some s0, List.mem_map_of_mem _ hs0mem, by simp [h]⟩
        · right
          rw [List.any_eq_true]
          exact ⟨some s0, List.mem_map_of_mem _ hs0mem, by simp [h]⟩
      simp [deriveNewStatus, hisEmpty, hallF, hany]
    simp only [checkAndUpdateCourse, hd]
    by_cases h : some UserCourseStatus.inProgress = cur <;> simp [h]
  · intro cur ls hne hall
    have hd : deriveNewStatus cur (ls.map some) = some .notStarted := by
      obtain ⟨a, t, rfl⟩ : ∃ a t, ls = a :: t := by
        cases ls with
        | nil => exact absurd rfl hne
        | cons a t => exact ⟨a, t, rfl⟩
      have ha : a = UserLessonStatus.notStarted := hall a (List.mem_cons_self a t)
      have hallF : ((a :: t).map some).all
          (fun s => s = some UserLessonStatus.completed) = false := by
        rw [← Bool.not_eq_true, List.all_eq_true]
        intro habs
        have := habs (some a) (List.mem_map_of_mem _ (List.mem_cons_self a t))
        simp [ha] at this
      have hany1 : ((a :: t).map some).any
          (fun s => s = some UserLessonStatus.inProgress) = false := by
        rw [← Bool.not_eq_true, List.any_eq_true]
        rintro ⟨s, hs, hps⟩
        rw [List.mem_map] at hs
        obtain ⟨x, hx, rfl⟩ := hs
        have := hall x hx
        subst this
        simp at hps
      have hany2 : ((a :: t).map some).any
          (fun s => s = some UserLessonStatus.completed) = false := by
        rw [← Bool.not_eq_true, List.any_eq_true]
        rintro ⟨s, hs, hps⟩
        rw [List.mem_map] at hs
        obtain ⟨x, hx, rfl⟩ := hs
        have := hall x hx
        subst this
        simp at hps
      have hisEmpty : ((a :: t).map some).isEmpty = false := rfl
      simp only [deriveNewStatus, hisEmpty, hallF, hany1, hany2,
        Bool.false_eq_true, if_false, Bool.or_false]
    simp only [checkAndUpdateCourse, hd]
    by_cases h : some UserCourseStatus.notStarted = cur <;> simp [h]

/-- Claim C2, witness: the four spec test vectors — empty list under a stored
`completed`, all-completed, mixed, and all-not-started lists. -/
theorem claim_C2_derived_course_status_witness :
    (checkAndUpdateCourse (some .completed) []).1 = some .notStarted ∧
    (checkAndUpdateCourse (some .notStarted)
      ([UserLessonStatus.completed, .completed].map some)).1 = some .completed ∧
    (checkAndUpdateCourse (some .notStarted)
      ([UserLessonStatus.notStarted, .inProgress].map some)).1 =
        some .inProgress ∧
    (checkAndUpdateCourse (some .notStarted)
      ([UserLessonStatus.notStarted, .notStarted].map some)).1 =
        some .notStarted :=
  ⟨claim_C2_derived_course_status.1 (some .completed),
   claim_C2_derived_course_status.2.1 (some .notStarted)
     [UserLessonStatus.completed, .completed] (by decide) (by decide),
   claim_C2_derived_course_status.2.2.1 (some .notStarted)
     [UserLessonStatus.notStarted, .inProgress]
     ⟨UserLessonStatus.inProgress, by decide, by decide⟩ (by decide),
   claim_C2_derived_course_status.2.2.2 (some .notStarted)
     [UserLessonStatus.notStarted, .notStarted] (by decide) (by decide)⟩

/-- Claim C9: calling `update_lesson_user_status` with a status equal to the
lesson's current user status succeeds and returns the lesson (same id, same
status), leaves the lesson rows unchanged, and the course user_status
write-back is executed only when the derived value differs from the stored
value; in particular, when the stored course status already equals the
derived one, no course write-back happens and the state is unchanged. -/
theorem claim_C9_idempotent_update (st : CourseState) (lid : Nat)
    (l : LessonRow) (hl : l ∈ st.lessons) (hid : l.id = lid)
    (hsame : ∀ l' ∈ st.lessons, l'.id = lid → l'.userStatus = l.userStatus) :
    (∃ r, (updateLessonUserStatus st lid l.userStatus).1 = some r ∧
      r.id = lid ∧ r.userStatus = l.userStatus) ∧
    (updateLessonUserStatus st lid l.userStatus).2.1.lessons = st.lessons ∧
    ((updateLessonUserStatus st lid l.userStatus).2.2 = true →
      deriveNewStatus st.userStatus
        (st.lessons.map (fun x => some x.userStatus)) ≠ st.userStatus) ∧
    (deriveNewStatus st.userStatus
        (st.lessons.map (fun x => some x.userStatus)) = st.userStatus →
      (updateLessonUserStatus st lid l.userStatus).2.2 = false ∧
      (updateLessonUserStatus st lid l.userStatus).2.1 = st) := by
  have hany : st.lessons.any (fun l' => l'.id == lid) = true := by
    rw [List.any_eq_true]
    exact ⟨l, hl, by simp [hid]⟩
  have hmap : st.lessons.map
      (fun l' => if l'.id == lid then { l' with userStatus := l.userStatus }
        else l') = st.lessons := by
    have hcong : ∀ l' ∈ st.lessons,
        (if l'.id == lid then { l' with userStatus := l.userStatus }
          else l') = id l' := by
      intro l' hl'
      by_cases h : l'.id = lid
      · have hs := hsame l' hl' h
        simp only [h, beq_self_eq_true, if_true, id]
        cases l'
        simp_all
      · simp [h]
    rw [List.map_congr_left hcong, List.map_id]
  have hkey : updateLessonUserStatus st lid l.userStatus =
      (st.lessons.find? (fun l' => l'.id == lid),
       ⟨(checkAndUpdateCourse st.userStatus
           (st.lessons.map (fun x => some x.userStatus))).1, st.lessons⟩,
       (checkAndUpdateCourse st.userStatus
           (st.lessons.map (fun x => some x.userStatus))).2) := by
    simp only [updateLessonUserStatus, hany, if_true, hmap]
  refine ⟨?_, ?_, ?_, ?_⟩
  · rw [hkey]
    have hsome : (st.lessons.find? (fun l' => l'.id == lid)).isSome := by
      rw [List.find?_isSome]
      exact ⟨l, hl, by simp [hid]⟩
    obtain ⟨r, hr⟩ := Option.isSome_iff_exists.mp hsome
    refine ⟨r, hr, ?_, ?_⟩
    · have := List.find?_some hr
      simpa using this
    · exact hsame r (List.mem_of_find?_eq_some hr) (by simpa using List.find?_some hr)
  · rw [hkey]
  · rw [hkey]
    intro hw habs
    rcases hder : deriveNewStatus st.userStatus
        (st.lessons.map (fun x => some x.userStatus)) with _ | v
    · rw [checkAndUpdateCourse, hder] at hw
      simp at hw
    · rw [checkAndUpdateCourse, hder] at hw
      rw [hder] at habs
      by_cases h : some v = st.userStatus
      · simp [h] at hw
      · exact h habs
  · rw [hkey]
    intro hder
    have hres : checkAndUpdateCourse st.userStatus
        (st.lessons.map (fun x => some x.userStatus)) = (st.userStatus, false) := by
      rcases hcur : st.userStatus with _ | v
      · rw [hcur] at hder
        rw [checkAndUpdateCourse, hder]
      · rw [hcur] at hder
        rw [checkAndUpdateCourse, hder]
        simp
    rw [hres]
    exact ⟨rfl, rfl⟩

/-- Claim C9, witness: setting lesson 1 of a two-lesson course (stored course
status `in_progress`, consistent with the derived value) to its current
status returns the lesson, performs no course write-back, and leaves the
state unchanged. -/
theorem claim_C9_idempotent_update_witness :
    (∃ r, (updateLessonUserStatus
        ⟨some .inProgress, [⟨1, 10, .inProgress⟩, ⟨2, 10, .notStarted⟩]⟩ 1
        .inProgress).1 = some r ∧ r.id = 1 ∧ r.userStatus = .inProgress) ∧
    (updateLessonUserStatus
        ⟨some .inProgress, [⟨1, 10, .inProgress⟩, ⟨2, 10, .notStarted⟩]⟩ 1
        .inProgress).2.2 = false ∧
    (updateLessonUserStatus
        ⟨some .inProgress, [⟨1, 10, .inProgress⟩, ⟨2, 10, .notStarted⟩]⟩ 1
        .inProgress).2.1 =
      ⟨some .inProgress, [⟨1, 10, .inProgress⟩, ⟨2, 10, .notStarted⟩]⟩ :=
  have h := claim_C9_idempotent_update
    ⟨some .inProgress, [⟨1, 10, .inProgress⟩, ⟨2, 10, .notStarted⟩]⟩ 1
    ⟨1, 10, .inProgress⟩ (by decide) (by decide) (by decide)
  ⟨h.1, (h.2.2.2 (by decide)).1, (h.2.2.2 (by decide)).2⟩

/-- Claim C3, counterexample: `retry_api_call` called with `max_retries = 0`
on an operation that always raises a retryable exception does not invoke the
operation `0 + 1` times; the falsy `0` is coerced to the settings default of
3 and the operation is invoked 4 times. -/
theorem claim_C3_counterexample :
    (retryApiCall
        (fun _ => (.error ⟨"Exception", "connection error"⟩ : Except PyExc Nat))
        (some 0)).calls ≠ 0 + 1 ∧
    (retryApiCall
        (fun _ => (.error ⟨"Exception", "connection error"⟩ : Except PyExc Nat))
        (some 0)).calls = settingsMaxRetries + 1 := by
  constructor <;> decide

/-- Claim C3 (amended to `max_retries ≥ 1`, since a passed `0` is replaced by
the settings default by the `or` idiom): for every operation that raises a
retryable-classified exception on every invocation, `retry_api_call` with
parameter `max_retries = m ≥ 1` invokes the operation exactly `m + 1` times
and then raises the exception of the last attempt to the caller (the result
is that raised exception, never a constructed value). -/
theorem claim_C3_retry_exhaustion {α : Type} (m : Nat) (hm : 1 ≤ m)
    (errs : Nat → PyExc)
    (hret : ∀ i, isRetryableError (errs i) = true) :
    retryApiCall (α := α) (fun i => .error (errs i)) (some m) =
      ⟨.error (errs m), m + 1, m⟩ := by
  have hne : m ≠ 0 := by omega
  unfold retryApiCall effectiveMaxRetries
  simp only [hne, if_false]
  simpa using retryLoopGo_allFail (α := α) errs hret m 0 0 0

/-- Claim C3, witness: a concrete run with `max_retries = 1` and an operation
that always raises a connection error makes exactly 2 invocations and raises
that error. -/
theorem claim_C3_retry_exhaustion_witness :
    retryApiCall
        (fun _ => (.error ⟨"Exception", "connection error"⟩ : Except PyExc Nat))
        (some 1) =
      ⟨.error ⟨"Exception", "connection error"⟩, 2, 1⟩ :=
  claim_C3_retry_exhaustion 1 (by decide)
    (fun _ => ⟨"Exception", "connection error"⟩)
    (by
      intro _
      show isRetryableError ⟨"Exception", "connection error"⟩ = true
      decide)

/-- Claim C8: for every operation whose first invocation raises a
non-retryable exception, `retry_api_call` with `max_retries ≥ 1` invokes the
operation exactly once, performs no sleep, and propagates that exception
immediately. -/
theorem claim_C8_nonretryable_once {α : Type} (m : Nat) (hm : 1 ≤ m)
    (op : Nat → Except PyExc α) (e : PyExc)
    (hop : op 0 = .error e) (hnr : isRetryableError e = false) :
    retryApiCall op (some m) = ⟨.error e, 1, 0⟩ := by
  have hne : m ≠ 0 := by omega
  unfold retryApiCall effectiveMaxRetries
  simp only [hne, if_false]
  obtain ⟨k, rfl⟩ : ∃ k, m = k + 1 := ⟨m - 1, by omega⟩
  simp [retryLoopGo, hop, hnr]

/-- Claim C8, witness: a concrete non-retryable failure (`ValueError`) with
`max_retries = 3` is invoked once, with no sleep, and the exception is
re-raised. -/
theorem claim_C8_nonretryable_once_witness :
    retryApiCall
        (fun _ => (.error ⟨"ValueError", "bad input"⟩ : Except PyExc Nat))
        (some 3) =
      ⟨.error ⟨"ValueError", "bad input"⟩, 1, 0⟩ :=
  claim_C8_nonretryable_once 3 (by decide)
    (fun _ => .error ⟨"ValueError", "bad input"⟩) ⟨"ValueError", "bad input"⟩
    rfl (by decide)

/-- Helper: with every placeholder insert succeeding, the generation loop
produces exactly the closed-form rows, appended to the accumulator. -/
theorem genLessonsLoop_closed (agent : Nat → Option AgentResp) (courseId : Nat) :
    ∀ (plan : List OutlineItem) (i nextId : Nat) (acc : List GenLesson)
      (qr : List Nat),
      (genLessonsLoop agent (fun _ => true) courseId plan i nextId acc qr).1 =
        acc ++ expectedRows agent courseId plan i nextId := by
  intro plan
  induction plan with
  | nil =>
    intro i nextId acc qr
    simp [genLessonsLoop, expectedRows]
  | cons item rest ih =>
    intro i nextId acc qr
    cases hu : usableContent (agent i) with
    | some c =>
      simp only [genLessonsLoop, hu, if_true, expectedRows, ih,
        List.append_assoc, List.singleton_append]
    | none =>
      simp only [genLessonsLoop, hu, if_true, expectedRows, ih,
        List.append_assoc, List.singleton_append]

/-- Helper: the generation statuses of the closed-form rows, one per outline
item: `completed` where the agent produced usable content, otherwise
`generation_failed`. -/
theorem expectedRows_map_status (agent : Nat → Option AgentResp)
    (courseId : Nat) :
    ∀ (plan : List OutlineItem) (i nextId : Nat),
      (expectedRows agent courseId plan i nextId).map
          (fun r => r.generationStatus) =
        (List.range plan.length).map (fun k =>
          if (usableContent (agent (i + k))).isSome then LessonStatus.completed
          else LessonStatus.generationFailed) := by
  intro plan
  induction plan with
  | nil => intro i nextId; simp [expectedRows]
  | cons item rest ih =>
    intro i nextId
    rw [expectedRows, List.map_cons, List.length_cons,
      List.range_succ_eq_map, List.map_cons, List.map_map]
    congr 1
    · cases hu : usableContent (agent i) <;> simp [hu]
    · rw [ih (i + 1) (nextId + 1)]
      apply List.map_congr_left
      intro k _
      simp only [Function.comp_apply]
      have : i + (k + 1) = i + 1 + k := by omega
      rw [Nat.succ_eq_add_one, this]

/-- Helper: the `order_in_course` values of the closed-form rows follow the
outline items in list order. -/
theorem expectedRows_map_order (agent : Nat → Option AgentResp)
    (courseId : Nat) :
    ∀ (plan : List OutlineItem) (i nextId : Nat),
      (expectedRows agent courseId plan i nextId).map
          (fun r => r.orderInCourse) =
        plan.map (fun it => it.order) := by
  intro plan
  induction plan with
  | nil => intro i nextId; simp [expectedRows]
  | cons item rest ih =>
    intro i nextId
    rw [expectedRows, List.map_cons, List.map_cons]
    congr 1
    · cases hu : usableContent (agent i) <;> simp [hu]
    · exact ih (i + 1) (nextId + 1)

/-- Helper: the stored `content_md` of the closed-form rows is exactly the
agent's usable content — in particular `none` (no failure message) for a
failed lesson. -/
theorem expectedRows_map_content (agent : Nat → Option AgentResp)
    (courseId : Nat) :
    ∀ (plan : List OutlineItem) (i nextId : Nat),
      (expectedRows agent courseId plan i nextId).map (fun r => r.contentMd) =
        (List.range plan.length).map (fun k => usableContent (agent (i + k))) := by
  intro plan
  induction plan with
  | nil => intro i nextId; simp [expectedRows]
  | cons item rest ih =>
    intro i nextId
    rw [expectedRows, List.map_cons, List.length_cons,
      List.range_succ_eq_map, List.map_cons, List.map_map]
    congr 1
    · cases hu : usableContent (agent i) <;> simp [hu]
    · rw [ih (i + 1) (nextId + 1)]
      apply List.map_congr_left
      intro k _
      simp only [Function.comp_apply]
      have : i + (k + 1) = i + 1 + k := by omega
      rw [Nat.succ_eq_add_one, this]

/-- Claim C1: with all repository inserts succeeding, if the lesson agent
fails for exactly one outline index `j` (and succeeds elsewhere), the
background task still ends with course `generation_status = completed`;
lesson rows are produced in outline order (their `order_in_course` values
follow the plan), lesson `j` ends `generation_failed`, and every other
lesson ends `completed`.  Since the course status is written only by the
final step of the task, it is `completed` only in a state where every
outline item already has its resolved lesson row. -/
theorem claim_C1_one_failure_still_completes
    (agent : Nat → Option AgentResp) (courseId : Nat)
    (plan : List OutlineItem) (hasQuizzes : Bool) (j : Nat)
    (hj : j < plan.length)
    (hfail : usableContent (agent j) = none)
    (hsucc : ∀ i, i < plan.length → i ≠ j → (usableContent (agent i)).isSome) :
    (generateLessonsTask agent (fun _ => true) courseId plan
      hasQuizzes).courseStatus = .completed ∧
    (generateLessonsTask agent (fun _ => true) courseId plan
      hasQuizzes).lessons.map (fun r => r.generationStatus) =
      (List.range plan.length).map (fun k =>
        if k = j then LessonStatus.generationFailed
        else LessonStatus.completed) ∧
    (generateLessonsTask agent (fun _ => true) courseId plan
      hasQuizzes).lessons.map (fun r => r.orderInCourse) =
      plan.map (fun it => it.order) := by
  have hlessons : (generateLessonsTask agent (fun _ => true) courseId plan
      hasQuizzes).lessons = expectedRows agent courseId plan 0 0 := by
    rw [generateLessonsTask]
    simpa using genLessonsLoop_closed agent courseId plan 0 0 [] []
  refine ⟨rfl, ?_, ?_⟩
  · rw [hlessons, expectedRows_map_status]
    apply List.map_congr_left
    intro k hk
    rw [List.mem_range] at hk
    rw [Nat.zero_add]
    by_cases hkj : k = j
    · subst hkj
      simp [hfail]
    · have := hsucc k hk hkj
      simp [this, hkj]
  · rw [hlessons, expectedRows_map_order]

/-- Claim C1, witness: a five-lesson plan whose agent fails only at index 3
still completes the course, with exactly lesson 3 `generation_failed` and the
rest `completed`, in outline order. -/
theorem claim_C1_one_failure_still_completes_witness :
    (generateLessonsTask
      (fun i => if i = 3 then some ⟨none, some (strLC "connection error")⟩
        else some ⟨some (strLC "content"), none⟩)
      (fun _ => true) 1
      [⟨1, strLC "L1", strLC "D1", false⟩, ⟨2, strLC "L2", strLC "D2", false⟩,
       ⟨3, strLC "L3", strLC "D3", false⟩, ⟨4, strLC "L4", strLC "D4", false⟩,
       ⟨5, strLC "L5", strLC "D5", false⟩] true).courseStatus = .completed ∧
    (generateLessonsTask
      (fun i => if i = 3 then some ⟨none, some (strLC "connection error")⟩
        else some ⟨some (strLC "content"), none⟩)
      (fun _ => true) 1
      [⟨1, strLC "L1", strLC "D1", false⟩, ⟨2, strLC "L2", strLC "D2", false⟩,
       ⟨3, strLC "L3", strLC "D3", false⟩, ⟨4, strLC "L4", strLC "D4", false⟩,
       ⟨5, strLC "L5", strLC "D5", false⟩] true).lessons.map
        (fun r => r.generationStatus) =
      (List.range 5).map (fun k =>
        if k = 3 then LessonStatus.generationFailed
        else LessonStatus.completed) ∧
    (generateLessonsTask
      (fun i => if i = 3 then some ⟨none, some (strLC "connection error")⟩
        else some ⟨some (strLC "content"), none⟩)
      (fun _ => true) 1
      [⟨1, strLC "L1", strLC "D1", false⟩, ⟨2, strLC "L2", strLC "D2", false⟩,
       ⟨3, strLC "L3", strLC "D3", false⟩, ⟨4, strLC "L4", strLC "D4", false⟩,
       ⟨5, strLC "L5", strLC "D5", false⟩] true).lessons.map
        (fun r => r.orderInCourse) = [1, 2, 3, 4, 5] := by
  have h := claim_C1_one_failure_still_completes
    (fun i => if i = 3 then some ⟨none, some (strLC "connection error")⟩
      else some ⟨some (strLC "content"), none⟩) 1
    [⟨1, strLC "L1", strLC "D1", false⟩, ⟨2, strLC "L2", strLC "D2", false⟩,
     ⟨3, strLC "L3", strLC "D3", false⟩, ⟨4, strLC "L4", strLC "D4", false⟩,
     ⟨5, strLC "L5", strLC "D5", false⟩] true 3 (by decide) (by decide)
    (by decide)
  exact ⟨h.1, h.2.1, h.2.2.trans (by decide)⟩

/-- Claim C7, counterexample: in the background generation loop, a lesson
whose agent call fails is persisted with
`generation_status = generation_failed` but with no failure reason in its
stored content (`content_md` remains null): the computed error message is
only logged. -/
theorem claim_C7_counterexample :
    (generateLessonsTask
      (fun _ => some ⟨none, some (strLC "connection error")⟩)
      (fun _ => true) 1 [⟨1, strLC "Intro", strLC "About", false⟩]
      true).lessons.map (fun r => r.generationStatus) =
        [LessonStatus.generationFailed] ∧
    (generateLessonsTask
      (fun _ => some ⟨none, some (strLC "connection error")⟩)
      (fun _ => true) 1 [⟨1, strLC "Intro", strLC "About", false⟩]
      true).lessons.map (fun r => r.contentMd) = [none] := by
  constructor <;> rfl

/-- Claim C7 (amended): only `regenerate_lesson` persists a human-readable
failure reason — on a failed agent call it stores
`generation_status = generation_failed` together with a message in
`content_md` that distinguishes connection-class failures (prefixed, when
the error string classifies as retryable) from other failures; the
background generation loop of `_generate_lessons_async` persists only the
failed status, leaving the lesson's stored content exactly the agent's
usable content (hence null for a failed lesson). -/
theorem claim_C7_failure_reason_persistence :
    (∀ (resp : Option AgentResp), usableContent resp = none →
      (regenerateProcessResponse resp).generationStatus =
          .generationFailed ∧
        (regenerateProcessResponse resp).contentMd =
          some (strLC "Content generation failed. " ++ regenFailureMsg resp)) ∧
    (∀ (e : Chars),
      regenFailureMsg (some ⟨none, some e⟩) =
        if isRetryableErrorChars (strLC "Exception") e then
          strLC "Connection issues prevented content generation after multiple retries: "
            ++ e
        else e) ∧
    (∀ (agent : Nat → Option AgentResp) (courseId : Nat)
      (plan : List OutlineItem) (hasQuizzes : Bool),
      (generateLessonsTask agent (fun _ => true) courseId plan
        hasQuizzes).lessons.map (fun r => r.contentMd) =
        (List.range plan.length).map (fun k => usableContent (agent k))) := by
  refine ⟨?_, ?_, ?_⟩
  · intro resp hn
    rw [regenerateProcessResponse, hn]
    exact ⟨rfl, rfl⟩
  · intro e
    rfl
  · intro agent courseId plan hasQuizzes
    have hlessons : (generateLessonsTask agent (fun _ => true) courseId plan
        hasQuizzes).lessons = expectedRows agent courseId plan 0 0 := by
      rw [generateLessonsTask]
      simpa using genLessonsLoop_closed agent courseId plan 0 0 [] []
    rw [hlessons, expectedRows_map_content]
    apply List.map_congr_left
    intro k _
    rw [Nat.zero_add]

/-- Claim C7, witness: a concrete failed regeneration with a retryable error
string stores the connection-class message; one with a non-retryable error
stores the plain message. -/
theorem claim_C7_failure_reason_persistence_witness :
    (regenerateProcessResponse (some ⟨none, some (strLC "timeout")⟩)).contentMd =
      some (strLC "Content generation failed. Connection issues prevented content generation after multiple retries: timeout") ∧
    (regenerateProcessResponse (some ⟨none, some (strLC "quota exceeded")⟩)).contentMd =
      some (strLC "Content generation failed. quota exceeded") :=
  ⟨((claim_C7_failure_reason_persistence.1
      (some ⟨none, some (strLC "timeout")⟩) (by decide)).2).trans (by decide),
   ((claim_C7_failure_reason_persistence.1
      (some ⟨none, some (strLC "quota exceeded")⟩) (by decide)).2).trans
     (by decide)⟩

/-- Claim C5, counterexample: when the planner's output fails JSON parsing,
`_generate_course_plan` gives up after the single planner invocation — the
planner is called exactly once, not twice, so no simplified re-prompt and
re-attempt ever happens. -/
theorem claim_C5_counterexample :
    generateCoursePlan (fun _ => none)
      (some ⟨some (strLC "not valid json"), none⟩) = (none, 1) ∧
    (1 : Nat) ≠ 2 := by
  constructor
  · rfl
  · decide

/-- Claim C5 (amended): when the planner agent's output fails JSON parsing or
fails validation of the required keys, the orchestrator gives up immediately
and reports plan failure after exactly one planner invocation; no simplified
re-prompt is issued. -/
theorem claim_C5_no_reprompt (loads : Chars → Option PlanData) (c : Chars)
    (hc : c ≠ [])
    (hfail : ∀ p, loads c = some p → planDataValid p = false) :
    generateCoursePlan loads (some ⟨some c, none⟩) = (none, 1) := by
  rw [generateCoursePlan]
  simp only [isEmpty_false_of_ne_nil c hc, Bool.false_eq_true, if_false]
  cases hl : loads c with
  | none => rfl
  | some p =>
    simp [hfail p hl]

/-- Claim C5, witness: a parse-failing planner output gives up after one
invocation. -/
theorem claim_C5_no_reprompt_witness :
    generateCoursePlan (fun _ => none) (some ⟨some (strLC "bad"), none⟩) =
      (none, 1) :=
  claim_C5_no_reprompt (fun _ => none) (strLC "bad") (by decide)
    (fun p h => nomatch h)

/-- Claim C10: every `create_course_with_team` call with
`has_quizzes = False` raises (and catches) the validation error before doing
anything else: it returns `None`, never invokes the planner agent, creates no
course row, and starts no background generation. -/
theorem claim_C10_quizzes_required (loads : Chars → Option PlanData)
    (plannerResp : Option AgentResp) (createOk : Bool) :
    createCourseWithTeam loads plannerResp createOk false =
      ⟨none, 0, false, false⟩ := rfl

end OSTeacher
